import Mathlib

/-!
# Verification of the PingParallel probing engine (`src/main.go`)

Shallow embedding of the concurrency-control core of the PingParallel HTTP
pinger: the retrying prober (`pingWithRetries`), the backoff computation, the
worker-goroutine control flow, and the result collector with its aggregate
statistics.  Network nondeterminism is abstracted as an oracle `prober :
Nat → Result` giving the outcome of each attempt; scheduler nondeterminism
(which branch each Go `select` resolves to, and whether `ctx` is cancelled at
a given observation point) is abstracted as explicit Boolean oracles.
Go `int`/`int64` values are modelled as `Int` (the counters and latency sums
stay far below 2^63 in any feasible run, so wrap-around is not modelled);
`float64` arithmetic in the backoff computation is modelled exactly over `ℚ`.
Wall-clock timestamps (the `When` field) are not modelled.
-/

namespace PingParallel

/-- Errors a probe attempt can carry: the cancellation cause (`ctx.Err()`)
or an ordinary transport/network error.  Go's `error` interface is modelled
as `Option PingError`, `none` standing for `nil`. -/
inductive PingError
  | canceled
  | transport
deriving Repr, DecidableEq

/-- `Result` from src/main.go lines 20-26: one outcome of one probe task.
`Status int` and `Duration` (int64 nanoseconds) are modelled as `Int`;
the `When time.Time` timestamp field is not modelled (wall clock). -/
structure Result where
  url : String
  status : Int
  duration : Int
  error : Option PingError
deriving Repr, DecidableEq

/-- The Go zero value `var last Result` (main.go line 75). -/
def Result.zero : Result := { url := "", status := 0, duration := 0, error := none }

/-- The result built on a cancellation exit of `pingWithRetries`
(main.go lines 79 and 96): `Result{URL: url, Error: ctx.Err(), When: time.Now()}`,
i.e. status 0, zero duration, error = the cancellation cause. -/
def cancelResult (url : String) : Result :=
  { url := url, status := 0, duration := 0, error := some .canceled }

/-- The short-circuit test of main.go line 84:
`last.Error == nil && (last.Status == 0 || last.Status < 500)`.
Its negation is exactly a retry-worthy failure (error present or status ≥ 500). -/
def retrySuccess (r : Result) : Bool :=
  r.error.isNone && (r.status == 0 || decide (r.status < 500))

/-- Sleep in whole milliseconds performed by the backoff of main.go lines 90-92:
`base := float64(100 * (1 << attempt))`, `jitter := rand.Float64() * base`,
`sleep := time.Duration(base+jitter) * time.Millisecond`.  The float64 → int64
conversion `time.Duration(base+jitter)` truncates the (non-negative) value,
i.e. takes its floor; `r` is the value drawn by `rand.Float64()`, a real in
[0,1), modelled exactly as a rational. -/
def backoffSleepMs (attempt : Nat) (r : ℚ) : ℤ :=
  ((100 * 2 ^ attempt : ℚ) + r * (100 * 2 ^ attempt : ℚ)).floor

/-- The observable outcome of one `pingWithRetries` call: the returned
`Result`, how many `pingOnce` attempts were performed, and the backoff
sleeps (in whole milliseconds) performed between attempts, in order. -/
structure RetryRun where
  result : Result
  attempts : Nat
  sleepsMs : List ℤ
deriving Repr, DecidableEq

/-- The `for attempt := 0; attempt <= maxRetries; attempt++` loop of
`pingWithRetries` (main.go lines 76-99), with the attempt whose index the
iteration carries made explicit.  `rem` is the number of loop iterations the
Go loop still admits (`maxRetries + 1 - attempt`); `last` is the `last`
variable on entry to the iteration.  Oracles: `prober i` is the `Result`
returned by `pingOnce` on attempt `i`; `jitter i` the `rand.Float64()` draw
used by the backoff after attempt `i`; `cancelAtCheck i` whether `ctx.Err()
!= nil` at the check heading iteration `i` (line 78); `cancelInBackoff i`
whether the backoff `select` after attempt `i` resolves to `<-ctx.Done()`
(line 95). -/
def pingLoop (prober : Nat → Result) (jitter : Nat → ℚ)
    (cancelAtCheck cancelInBackoff : Nat → Bool) (url : String)
    (maxRetries : Nat) : Nat → Nat → Result → RetryRun
  | 0, _, last => { result := last, attempts := 0, sleepsMs := [] }
  | rem + 1, attempt, _ =>
    if cancelAtCheck attempt then
      { result := cancelResult url, attempts := 0, sleepsMs := [] }
    else
      let r := prober attempt
      if retrySuccess r then
        { result := r, attempts := 1, sleepsMs := [] }
      else if attempt < maxRetries then
        if cancelInBackoff attempt then
          { result := cancelResult url, attempts := 1, sleepsMs := [] }
        else
          let rest := pingLoop prober jitter cancelAtCheck cancelInBackoff url
            maxRetries rem (attempt + 1) r
          { result := rest.result, attempts := rest.attempts + 1,
            sleepsMs := backoffSleepMs attempt (jitter attempt) :: rest.sleepsMs }
      else
        { result := r, attempts := 1, sleepsMs := [] }

/-- `pingWithRetries` (main.go lines 74-101): up to `maxRetries + 1` attempts,
starting at attempt index 0 with the zero-valued `last`. -/
def pingWithRetries (prober : Nat → Result) (jitter : Nat → ℚ)
    (cancelAtCheck cancelInBackoff : Nat → Bool) (url : String)
    (maxRetries : Nat) : RetryRun :=
  pingLoop prober jitter cancelAtCheck cancelInBackoff url maxRetries
    (maxRetries + 1) 0 Result.zero

/-- The aggregate-success test of the collector goroutine, main.go line 200:
`ok := (r.Error == nil) && (r.Status == 0 || r.Status < 400)`. -/
def aggOk (r : Result) : Bool :=
  r.error.isNone && (r.status == 0 || decide (r.status < 400))

/-- The mutable statistics owned by the collector (main.go lines 187-192),
with their initial values: `minLatency` starts at `math.MaxInt64 = 2^63 - 1`,
everything else at 0. -/
structure Stats where
  total : Int
  success : Int
  failed : Int
  sumNanos : Int
  minLatency : Int
  maxLatency : Int
deriving Repr, DecidableEq

/-- Initial statistics (main.go lines 187-192). -/
def initStats : Stats :=
  { total := 0, success := 0, failed := 0, sumNanos := 0,
    minLatency := 2 ^ 63 - 1, maxLatency := 0 }

/-- One iteration of the collector goroutine's `for r := range results`
loop (main.go lines 198-220): increment `total`; increment `success` or
`failed` according to `aggOk`; and, when the result is error-free, add its
duration to `sumNanos` and update the latency extrema. -/
def collectorStep (st : Stats) (r : Result) : Stats :=
  let st1 := { st with total := st.total + 1 }
  let st2 :=
    if aggOk r then { st1 with success := st1.success + 1 }
    else { st1 with failed := st1.failed + 1 }
  if r.error.isNone then
    let n := r.duration
    { st2 with
      sumNanos := st2.sumNanos + n,
      minLatency := if n < st2.minLatency then n else st2.minLatency,
      maxLatency := if n > st2.maxLatency then n else st2.maxLatency }
  else st2

/-- The collector run to completion over the sequence of results it consumes
(in arrival order) before the `results` channel closes. -/
def collect (rs : List Result) : Stats :=
  rs.foldl collectorStep initStats

/-- The reported average latency (main.go lines 280-283):
`var avg time.Duration; if tot > 0 && sumNanos > 0 { avg = sumNanos / tot }`.
Both operands are positive on the taken branch, so Go's truncated int64
division agrees with `Int` division. -/
def avgLatency (st : Stats) : Int :=
  if 0 < st.total ∧ 0 < st.sumNanos then st.sumNanos / st.total else 0

/-- The latency line of the final summary (main.go lines 287-289): printed
(with average, min and max) exactly when `tot > 0`, otherwise omitted. -/
def summaryLatencyLine (st : Stats) : Option (Int × Int × Int) :=
  if 0 < st.total then some (avgLatency st, st.minLatency, st.maxLatency) else none

/-- Observable control-flow events of one worker goroutine
(main.go lines 237-257). -/
inductive WorkerEvent
  | acquirePermit      -- `sem <- struct{}{}` (line 239)
  | acquireToken       -- the token select resolves to `<-tokenCh` (line 247)
  | cancelAtTokenWait  -- the token select resolves to `<-ctx.Done()` (line 245)
  | runRetryPolicy     -- the `pingWithRetries` call (line 251)
  | submitResult       -- the submit select resolves to `results <- res` (line 255)
  | cancelAtSubmit     -- the submit select resolves to `<-ctx.Done()` (line 253)
  | releasePermit      -- the deferred `<-sem` (line 240)
deriving Repr, DecidableEq

/-- One worker goroutine (main.go lines 237-257), as the ordered trace of its
control-flow events together with the result it submits to the collector, if
any.  `cancelPendingAtStart` records whether the cancellation signal has
already fired when the goroutine starts; the semaphore send at line 239 is a
plain channel send with no `select` on `ctx.Done()`, so this flag is never
consulted — the worker acquires the permit regardless.  `rateEnabled` is
`tokenCh != nil` (i.e. `rate > 0`); `cancelAtTokenWait` and `cancelAtSubmit`
record which branch the two `select` statements resolve to (the cancellation
branch is only eligible once the signal has fired).  On either cancellation
branch the worker returns without submitting anything; the deferred `<-sem`
releases the permit on every exit path. -/
def worker (_cancelPendingAtStart rateEnabled cancelAtTokenWait cancelAtSubmit : Bool)
    (prober : Nat → Result) (jitter : Nat → ℚ)
    (cancelAtCheck cancelInBackoff : Nat → Bool) (url : String)
    (retries : Nat) : List WorkerEvent × Option Result :=
  if rateEnabled && cancelAtTokenWait then
    ([.acquirePermit, .cancelAtTokenWait, .releasePermit], none)
  else
    let res := (pingWithRetries prober jitter cancelAtCheck cancelInBackoff url retries).result
    let pre : List WorkerEvent :=
      if rateEnabled then [.acquirePermit, .acquireToken] else [.acquirePermit]
    if cancelAtSubmit then
      (pre ++ [.runRetryPolicy, .cancelAtSubmit, .releasePermit], none)
    else
      (pre ++ [.runRetryPolicy, .submitResult, .releasePermit], some res)

/-- The task step order stated by the spec (§4.5): "(a) acquires a
rate-limiter token if enabled, (b) acquires an admission permit, (c) runs the
Retry Policy, (d) submits the ProbeResult to the Aggregator, (e) releases the
admission permit" — token before permit.  Stated from the spec's words, for
comparison against the trace the code actually produces. -/
def specTaskStepOrder : List WorkerEvent :=
  [.acquireToken, .acquirePermit, .runRetryPolicy, .submitResult, .releasePermit]

/-! ## Helper lemmas -/

/-- Batteries' computable `Rat.floor` agrees with Mathlib's `Int.floor`. -/
lemma ratFloor_eq (q : ℚ) : q.floor = ⌊q⌋ := rfl

/-- Unfolding of the short-circuit test of main.go line 84. -/
lemma retrySuccess_iff (r : Result) :
    retrySuccess r = true ↔ r.error = none ∧ (r.status = 0 ∨ r.status < 500) := by
  simp [retrySuccess, Option.isNone_iff_eq_none]

/-- A retry-worthy failure (transport error present, or status ≥ 500) fails
the short-circuit test. -/
lemma retrySuccess_eq_false (r : Result) (h : r.error ≠ none ∨ 500 ≤ r.status) :
    retrySuccess r = false := by
  rw [← Bool.not_eq_true, retrySuccess_iff]
  rintro ⟨he, hs⟩
  rcases h with h | h
  · exact h he
  · rcases hs with h0 | h5 <;> omega

/-- Unfolding of the aggregate-success test of main.go line 200. -/
lemma aggOk_iff (r : Result) :
    aggOk r = true ↔ r.error = none ∧ (r.status = 0 ∨ r.status < 400) := by
  simp [aggOk, Option.isNone_iff_eq_none]

/-- A retry-worthy failure is also an aggregate failure. -/
lemma aggOk_eq_false_of_retry_worthy (r : Result) (h : r.error ≠ none ∨ 500 ≤ r.status) :
    aggOk r = false := by
  rw [← Bool.not_eq_true, aggOk_iff]
  rintro ⟨he, hs⟩
  rcases h with h | h
  · exact h he
  · rcases hs with h0 | h4 <;> omega

/-- When every attempt up to the budget is a retry-worthy failure and
cancellation never fires, the retry loop runs all of its remaining
iterations, returning the result of the final attempt after performing one
attempt per iteration. -/
lemma pingLoop_all_fail (prober : Nat → Result) (jitter : Nat → ℚ) (url : String)
    (R : Nat) (hfail : ∀ i, i ≤ R → retrySuccess (prober i) = false) :
    ∀ rem a last, rem = R + 1 - a → a ≤ R →
      (pingLoop prober jitter (fun _ => false) (fun _ => false) url R rem a last).result
          = prober R ∧
      (pingLoop prober jitter (fun _ => false) (fun _ => false) url R rem a last).attempts
          = rem := by
  intro rem
  induction rem with
  | zero => intro a last h1 h2; omega
  | succ rem ih =>
    intro a last h1 h2
    by_cases hlt : a < R
    · have hrec := ih (a + 1) (prober a) (by omega) (by omega)
      simp only [pingLoop, Bool.false_eq_true, if_false, hfail a h2, hlt, if_true]
      exact ⟨hrec.1, by rw [hrec.2]⟩
    · have ha : a = R := by omega
      subst ha
      have h0 : rem = 0 := by omega
      subst h0
      simp [pingLoop, hfail a le_rfl, hlt]

/-- The latency-derived components of the statistics: `(sumNanos, minLatency,
maxLatency)`. -/
def latOf (st : Stats) : Int × Int × Int := (st.sumNanos, st.minLatency, st.maxLatency)

/-- How one consumed result transforms the latency components (main.go lines
206-216): updated only when the result is error-free. -/
def latStep (p : Int × Int × Int) (r : Result) : Int × Int × Int :=
  if r.error.isNone then
    (p.1 + r.duration,
     if r.duration < p.2.1 then r.duration else p.2.1,
     if p.2.2 < r.duration then r.duration else p.2.2)
  else p

/-- `collectorStep` acts on the latency components exactly as `latStep`. -/
lemma latOf_collectorStep (st : Stats) (r : Result) :
    latOf (collectorStep st r) = latStep (latOf st) r := by
  by_cases he : r.error.isNone <;> by_cases ha : aggOk r <;>
    simp [collectorStep, latOf, latStep, he, ha]

/-- The latency components of a collector run are the `latStep` fold. -/
lemma latOf_foldl (rs : List Result) :
    ∀ st : Stats, latOf (rs.foldl collectorStep st) = rs.foldl latStep (latOf st) := by
  induction rs with
  | nil => intro st; rfl
  | cons r rs ih =>
    intro st
    rw [List.foldl_cons, List.foldl_cons, ih, latOf_collectorStep]

/-- A result carrying an error leaves the latency components unchanged. -/
lemma latStep_of_error (p : Int × Int × Int) (r : Result) (h : ¬r.error.isNone = true) :
    latStep p r = p := by
  simp [latStep, h]

/-- The `latStep` fold only sees the error-free results. -/
lemma foldl_latStep_filter (rs : List Result) :
    ∀ p, rs.foldl latStep p = (rs.filter fun r => r.error.isNone).foldl latStep p := by
  induction rs with
  | nil => intro p; rfl
  | cons r rs ih =>
    intro p
    by_cases h : r.error.isNone = true
    · have hf : List.filter (fun r => r.error.isNone) (r :: rs)
          = r :: List.filter (fun r => r.error.isNone) rs := by
        simp [List.filter_cons, h]
      rw [List.foldl_cons, hf, List.foldl_cons, ih]
    · have hf : List.filter (fun r => r.error.isNone) (r :: rs)
          = List.filter (fun r => r.error.isNone) rs := by
        simp [List.filter_cons, h]
      rw [List.foldl_cons, hf, latStep_of_error p r h, ih]

/-- One collector iteration increments `total` by one and exactly one of
`success`, `failed`. -/
lemma collectorStep_counters (st : Stats) (r : Result) :
    (collectorStep st r).total = st.total + 1 ∧
    ((collectorStep st r).success = st.success + 1 ∧ (collectorStep st r).failed = st.failed ∨
     (collectorStep st r).success = st.success ∧ (collectorStep st r).failed = st.failed + 1) := by
  by_cases he : r.error.isNone <;> by_cases ha : aggOk r <;>
    simp [collectorStep, he, ha]

/-- `total = success + failed` is preserved by the collector fold. -/
lemma foldl_total_eq (rs : List Result) :
    ∀ st : Stats, st.total = st.success + st.failed →
      (rs.foldl collectorStep st).total
        = (rs.foldl collectorStep st).success + (rs.foldl collectorStep st).failed := by
  induction rs with
  | nil => intro st h; exact h
  | cons r rs ih =>
    intro st h
    apply ih
    obtain ⟨ht, hsf⟩ := collectorStep_counters st r
    rcases hsf with ⟨hs, hf⟩ | ⟨hs, hf⟩ <;> omega

/-- After consuming an error-free result, the minimum latency is at most the
result's duration and the maximum is at least it. -/
lemma collectorStep_minmax_of_errfree (st : Stats) (r : Result) (h : r.error.isNone = true) :
    (collectorStep st r).minLatency ≤ r.duration ∧
    r.duration ≤ (collectorStep st r).maxLatency := by
  by_cases ha : aggOk r <;> simp [collectorStep, h, ha] <;>
    constructor <;> split <;> omega

/-- One collector iteration preserves `minLatency ≤ maxLatency`. -/
lemma collectorStep_minmax_mono (st : Stats) (r : Result)
    (h : st.minLatency ≤ st.maxLatency) :
    (collectorStep st r).minLatency ≤ (collectorStep st r).maxLatency := by
  by_cases he : r.error.isNone
  · by_cases ha : aggOk r <;> simp [collectorStep, he, ha] <;> split <;> split <;> omega
  · by_cases ha : aggOk r <;> simpa [collectorStep, he, ha] using h

/-- Once a success (which is error-free) has been consumed, the extrema
stay ordered for the rest of the run. -/
lemma foldl_minmax (rs : List Result) :
    ∀ st : Stats, ((∃ x ∈ rs, aggOk x = true) ∨ st.minLatency ≤ st.maxLatency) →
      (rs.foldl collectorStep st).minLatency ≤ (rs.foldl collectorStep st).maxLatency := by
  induction rs with
  | nil =>
    intro st h
    rcases h with ⟨x, hx, _⟩ | hle
    · exact absurd hx (List.not_mem_nil x)
    · exact hle
  | cons r rs ih =>
    intro st h
    rw [List.foldl_cons]
    apply ih
    rcases h with ⟨x, hx, hok⟩ | hle
    · rcases List.mem_cons.mp hx with rfl | hmem
      · right
        have he : x.error.isNone = true := by
          have := (aggOk_iff x).mp hok
          simp [this.1]
        obtain ⟨h1, h2⟩ := collectorStep_minmax_of_errfree st x he
        omega
      · left; exact ⟨x, hmem, hok⟩
    · right; exact collectorStep_minmax_mono st r hle

/-! ## Claims -/

/-- C1: a probe attempt whose result has no transport error and an HTTP
status in [400,500) is retry-terminal — `pingWithRetries` returns that
result after a single attempt, with no backoff — yet the collector counts
that same result in `failed`, not `success`. -/
theorem c1_retry_terminal_4xx_counted_failed (prober : Nat → Result) (jitter : Nat → ℚ)
    (cancelAtCheck cancelInBackoff : Nat → Bool) (url : String) (maxRetries : Nat)
    (st : Stats) (herr : (prober 0).error = none) (h4 : 400 ≤ (prober 0).status)
    (h5 : (prober 0).status < 500) (hcb : cancelAtCheck 0 = false) :
    pingWithRetries prober jitter cancelAtCheck cancelInBackoff url maxRetries
        = { result := prober 0, attempts := 1, sleepsMs := [] } ∧
    aggOk (prober 0) = false ∧
    (collectorStep st (prober 0)).failed = st.failed + 1 ∧
    (collectorStep st (prober 0)).success = st.success := by
  have hrs : retrySuccess (prober 0) = true := by
    rw [retrySuccess_iff]
    exact ⟨herr, Or.inr h5⟩
  have hao : aggOk (prober 0) = false := by
    rw [← Bool.not_eq_true, aggOk_iff]
    rintro ⟨-, hs⟩
    rcases hs with h0 | hlt <;> omega
  refine ⟨?_, hao, ?_, ?_⟩
  · simp [pingWithRetries, pingLoop, hcb, hrs]
  · simp [collectorStep, hao, herr]
  · simp [collectorStep, hao, herr]

/-- Witness for C1 at a concrete status-430 first attempt. -/
theorem c1_witness :
    ((fun _ : Nat => ({ url := "u", status := 430, duration := 7, error := none } : Result)) 0).error = none ∧
    pingWithRetries (fun _ => { url := "u", status := 430, duration := 7, error := none })
        (fun _ => 0) (fun _ => false) (fun _ => false) "u" 2
        = { result := { url := "u", status := 430, duration := 7, error := none },
            attempts := 1, sleepsMs := [] } ∧
    aggOk { url := "u", status := 430, duration := 7, error := none } = false ∧
    (collectorStep initStats { url := "u", status := 430, duration := 7, error := none }).failed
        = initStats.failed + 1 := by
  have h := c1_retry_terminal_4xx_counted_failed
    (fun _ => { url := "u", status := 430, duration := 7, error := none })
    (fun _ => 0) (fun _ => false) (fun _ => false) "u" 2 initStats
    (by decide) (by decide) (by decide) (by decide)
  exact ⟨rfl, h.1, h.2.1, h.2.2.1⟩

/-- C2: with retry budget `R`, a URL whose every attempt is a retry-worthy
failure (transport error present, or status ≥ 500), with cancellation never
fired, gets exactly `R + 1` prober attempts, and `pingWithRetries` returns
the result of the last attempt, which is an aggregate failure. -/
theorem c2_exhausts_budget_returns_last (prober : Nat → Result) (jitter : Nat → ℚ)
    (url : String) (R : Nat)
    (hfail : ∀ i, i ≤ R → (prober i).error ≠ none ∨ 500 ≤ (prober i).status) :
    (pingWithRetries prober jitter (fun _ => false) (fun _ => false) url R).attempts
        = R + 1 ∧
    (pingWithRetries prober jitter (fun _ => false) (fun _ => false) url R).result
        = prober R ∧
    aggOk (pingWithRetries prober jitter (fun _ => false) (fun _ => false) url R).result
        = false := by
  have hfail' : ∀ i, i ≤ R → retrySuccess (prober i) = false := fun i hi =>
    retrySuccess_eq_false _ (hfail i hi)
  have h := pingLoop_all_fail prober jitter url R hfail' (R + 1) 0 Result.zero
    (by omega) (Nat.zero_le R)
  have hres : (pingWithRetries prober jitter (fun _ => false) (fun _ => false) url R).result
      = prober R := h.1
  have hatt : (pingWithRetries prober jitter (fun _ => false) (fun _ => false) url R).attempts
      = R + 1 := h.2
  refine ⟨hatt, hres, ?_⟩
  rw [hres]
  exact aggOk_eq_false_of_retry_worthy _ (hfail R le_rfl)

/-- Witness for C2: an always-transport-failing prober with budget 2 yields
exactly 3 attempts. -/
theorem c2_witness :
    (∀ i, i ≤ 2 →
      ((fun _ : Nat => ({ url := "u", status := 0, duration := 5, error := some .transport } : Result)) i).error ≠ none ∨
      500 ≤ ((fun _ : Nat => ({ url := "u", status := 0, duration := 5, error := some .transport } : Result)) i).status) ∧
    (pingWithRetries (fun _ => { url := "u", status := 0, duration := 5, error := some .transport })
        (fun _ => 0) (fun _ => false) (fun _ => false) "u" 2).attempts = 3 ∧
    (pingWithRetries (fun _ => { url := "u", status := 0, duration := 5, error := some .transport })
        (fun _ => 0) (fun _ => false) (fun _ => false) "u" 2).result
        = { url := "u", status := 0, duration := 5, error := some .transport } := by
  have h := c2_exhausts_budget_returns_last
    (fun _ => { url := "u", status := 0, duration := 5, error := some .transport })
    (fun _ => 0) "u" 2 (by decide)
  exact ⟨by decide, h.1, h.2.1⟩

/-- C3 counterexample: a task whose rate-token select resolves to the
cancellation branch (main.go line 245) returns without submitting anything
to the collector — it yields no result at all, refuting the claim that every
task, including a cancelled one, submits exactly one terminal result. -/
theorem c3_counterexample :
    (worker false true true false
        (fun _ => { url := "u", status := 200, duration := 5, error := none })
        (fun _ => 0) (fun _ => false) (fun _ => false) "u" 0).2 = none := by
  decide

/-- C3 (amended): a task submits exactly one result when neither of its two
cancellation-racing selects resolves to cancellation, and no result at all
otherwise; when the retry policy itself observes cancellation it returns an
error result carrying the cancellation cause (which is submitted only if the
submit select then takes the channel branch). -/
theorem c3_amended_submits_unless_cancelled
    (cps rE cT cS : Bool) (prober : Nat → Result) (jitter : Nat → ℚ)
    (cancelAtCheck cancelInBackoff : Nat → Bool) (url : String) (R : Nat) :
    (worker cps rE cT cS prober jitter cancelAtCheck cancelInBackoff url R).2
        = (if (rE && cT) || cS then none
           else some (pingWithRetries prober jitter cancelAtCheck cancelInBackoff url R).result) ∧
    ((worker cps rE cT cS prober jitter cancelAtCheck cancelInBackoff url R).1.count .submitResult)
        = (if (rE && cT) || cS then 0 else 1) ∧
    (pingWithRetries prober jitter (fun _ => true) cancelInBackoff url R).result
        = cancelResult url := by
  refine ⟨?_, ?_, ?_⟩
  · cases rE <;> cases cT <;> cases cS <;> simp [worker]
  · cases rE <;> cases cT <;> cases cS <;> simp [worker, List.count_cons]
  · simp [pingWithRetries, pingLoop]

/-- C5 counterexample: with rate limiting enabled and no cancellation, the
trace the worker actually produces differs from the step order stated by the
spec — the code acquires the admission permit (line 239) before the
rate-limiter token (lines 243-249), not after. -/
theorem c5_counterexample :
    (worker false true false false
        (fun _ => { url := "u", status := 200, duration := 5, error := none })
        (fun _ => 0) (fun _ => false) (fun _ => false) "u" 0).1 ≠ specTaskStepOrder := by
  decide

/-- C5 (amended): every task that takes no cancellation branch performs its
steps in the order: (a) acquire the admission permit, (b) acquire a
rate-limiter token when rate > 0, (c) run the Retry Policy, (d) submit the
ProbeResult, (e) release the admission permit. -/
theorem c5_amended_permit_before_token
    (cps rE : Bool) (prober : Nat → Result) (jitter : Nat → ℚ)
    (cancelAtCheck cancelInBackoff : Nat → Bool) (url : String) (R : Nat) :
    (worker cps rE false false prober jitter cancelAtCheck cancelInBackoff url R).1
        = (if rE then [.acquirePermit, .acquireToken] else [.acquirePermit])
            ++ [.runRetryPolicy, .submitResult, .releasePermit] ∧
    (worker cps rE false false prober jitter cancelAtCheck cancelInBackoff url R).2
        = some (pingWithRetries prober jitter cancelAtCheck cancelInBackoff url R).result := by
  cases rE <;> simp [worker]

/-- C6 counterexample: even when the cancellation signal has already fired as
the task starts (and every select thereafter resolves in cancellation's
favor), the task's first step is still the admission-permit acquisition —
the plain semaphore send at main.go line 239 does not observe cancellation,
so acquisition does not resolve in cancellation's favor. -/
theorem c6_counterexample :
    (worker true true true true
        (fun _ => { url := "u", status := 200, duration := 5, error := none })
        (fun _ => 0) (fun _ => true) (fun _ => true) "u" 0).1.head?
        = some .acquirePermit := by
  decide

/-- C6 (amended): the rate-limiter token wait and the result submission race
against the cancellation signal (a task whose token select resolves to
cancellation exits, releasing its permit, without submitting), but
admission-permit acquisition does not observe cancellation: every task's
first event is the permit acquisition, whatever the cancellation state. -/
theorem c6_amended_permit_acquisition_ignores_cancel
    (cps rE cT cS : Bool) (prober : Nat → Result) (jitter : Nat → ℚ)
    (cancelAtCheck cancelInBackoff : Nat → Bool) (url : String) (R : Nat) :
    (worker cps rE cT cS prober jitter cancelAtCheck cancelInBackoff url R).1.head?
        = some .acquirePermit ∧
    worker cps true true cS prober jitter cancelAtCheck cancelInBackoff url R
        = ([.acquirePermit, .cancelAtTokenWait, .releasePermit], none) := by
  constructor
  · cases rE <;> cases cT <;> cases cS <;> simp [worker]
  · simp [worker]

/-- C9 counterexample: the slept delay is a whole number of milliseconds —
the float64 → int64 conversion at main.go line 92 truncates — so for jitter
draw r = 3/2000 after attempt 0 the delay is 100 ms, not the claimed
100·2^0·(1 + 3/2000) = 100.15 ms. -/
theorem c9_counterexample :
    ((backoffSleepMs 0 (3 / 2000) : ℚ)) ≠ 100 * 2 ^ 0 * (1 + 3 / 2000) := by
  rw [backoffSleepMs, ratFloor_eq]
  norm_num

/-- C9 (amended): after a retry-worthy failure at attempt `a` with budget
remaining and no cancellation, the loop sleeps
`⌊(100·2^a)·(1 + r)⌋` milliseconds before attempt `a + 1`, where `r ∈ [0,1)`
is the drawn jitter; this delay lies in `[100·2^a, 200·2^a)` milliseconds. -/
theorem c9_backoff_floor_and_range (prober : Nat → Result) (jitter : Nat → ℚ)
    (cancelAtCheck cancelInBackoff : Nat → Bool) (url : String)
    (R rem a : Nat) (last : Result)
    (h0 : 0 ≤ jitter a) (h1 : jitter a < 1)
    (hc : cancelAtCheck a = false) (hf : retrySuccess (prober a) = false)
    (ha : a < R) (hb : cancelInBackoff a = false) :
    (pingLoop prober jitter cancelAtCheck cancelInBackoff url R (rem + 1) a last).sleepsMs
        = backoffSleepMs a (jitter a)
            :: (pingLoop prober jitter cancelAtCheck cancelInBackoff url R rem (a + 1)
                  (prober a)).sleepsMs ∧
    backoffSleepMs a (jitter a) = ⌊(100 * 2 ^ a : ℚ) * (1 + jitter a)⌋ ∧
    (100 * 2 ^ a : ℤ) ≤ backoffSleepMs a (jitter a) ∧
    backoffSleepMs a (jitter a) < 200 * 2 ^ a := by
  have hpow : (0 : ℚ) < 2 ^ a := pow_pos (by norm_num) a
  refine ⟨?_, ?_, ?_, ?_⟩
  · simp [pingLoop, hc, hf, ha, hb]
  · rw [backoffSleepMs, ratFloor_eq]
    congr 1
    ring
  · rw [backoffSleepMs, ratFloor_eq, Int.le_floor]
    push_cast
    nlinarith
  · rw [backoffSleepMs, ratFloor_eq, Int.floor_lt]
    push_cast
    nlinarith

/-- Witness for C9 (amended) at attempt index 1 with jitter draw 1/2:
the delay is 300 ms, within [200, 400). -/
theorem c9_witness :
    (0 : ℚ) ≤ 1 / 2 ∧ (1 / 2 : ℚ) < 1 ∧
    (pingLoop (fun _ => { url := "u", status := 0, duration := 5, error := some .transport })
        (fun _ => 1 / 2) (fun _ => false) (fun _ => false) "u" 2 2 1 Result.zero).sleepsMs
        = backoffSleepMs 1 (1 / 2)
            :: (pingLoop (fun _ => { url := "u", status := 0, duration := 5, error := some .transport })
                  (fun _ => 1 / 2) (fun _ => false) (fun _ => false) "u" 2 1 2
                  { url := "u", status := 0, duration := 5, error := some .transport }).sleepsMs ∧
    (200 : ℤ) ≤ backoffSleepMs 1 (1 / 2) ∧
    backoffSleepMs 1 (1 / 2) < 400 := by
  have h := c9_backoff_floor_and_range
    (fun _ => { url := "u", status := 0, duration := 5, error := some .transport })
    (fun _ => 1 / 2) (fun _ => false) (fun _ => false) "u" 2 1 1 Result.zero
    (by norm_num) (by norm_num) rfl (by decide) (by norm_num) rfl
  exact ⟨by norm_num, by norm_num, h.1, h.2.2.1, h.2.2.2⟩

/-- C4: in the final summary, `sumLatency`, `minLatency` and `maxLatency`
are derived only from the error-free results the collector consumed; the
reported average is `sumLatency / total` (and zero when `total` or
`sumLatency` is not positive), in particular zero when no error-free result
was consumed. -/
theorem c4_latency_from_error_free_only (rs : List Result) :
    (collect rs).sumNanos = (collect (rs.filter fun r => r.error.isNone)).sumNanos ∧
    (collect rs).minLatency = (collect (rs.filter fun r => r.error.isNone)).minLatency ∧
    (collect rs).maxLatency = (collect (rs.filter fun r => r.error.isNone)).maxLatency ∧
    avgLatency (collect rs)
        = (if 0 < (collect rs).total ∧ 0 < (collect rs).sumNanos
           then (collect rs).sumNanos / (collect rs).total else 0) ∧
    ((∀ r ∈ rs, r.error ≠ none) → avgLatency (collect rs) = 0) := by
  have hlat : latOf (collect rs) = latOf (collect (rs.filter fun r => r.error.isNone)) := by
    rw [collect, collect, latOf_foldl, latOf_foldl, foldl_latStep_filter rs]
  have h1 : (collect rs).sumNanos = (collect (rs.filter fun r => r.error.isNone)).sumNanos :=
    congrArg Prod.fst hlat
  have h2 : (collect rs).minLatency = (collect (rs.filter fun r => r.error.isNone)).minLatency :=
    congrArg (fun p => p.2.1) hlat
  have h3 : (collect rs).maxLatency = (collect (rs.filter fun r => r.error.isNone)).maxLatency :=
    congrArg (fun p => p.2.2) hlat
  refine ⟨h1, h2, h3, rfl, ?_⟩
  intro hall
  have hemp : rs.filter (fun r => r.error.isNone) = [] := by
    rw [List.filter_eq_nil_iff]
    intro r hr
    simpa [Option.isNone_iff_eq_none] using hall r hr
  have hsum : (collect rs).sumNanos = 0 := by
    rw [h1, hemp]; rfl
  rw [avgLatency, hsum]
  simp

/-- Witness for C4: a run whose only result carries an error reports
average latency zero. -/
theorem c4_witness :
    (∀ r ∈ [({ url := "u", status := 0, duration := 9, error := some .transport } : Result)],
        r.error ≠ none) ∧
    avgLatency (collect [{ url := "u", status := 0, duration := 9, error := some .transport }]) = 0 := by
  have h := c4_latency_from_error_free_only
    [{ url := "u", status := 0, duration := 9, error := some .transport }]
  exact ⟨by decide, h.2.2.2.2 (by decide)⟩

/-- C7: after the collector consumes each result, `total = success + failed`
holds; one consumption step never decreases `total`, `success` or `failed`;
and `minLatency ≤ maxLatency` holds once at least one successful result has
been consumed. -/
theorem c7_aggregate_invariants (rs : List Result) (st : Stats) (r : Result) :
    (collect rs).total = (collect rs).success + (collect rs).failed ∧
    st.total ≤ (collectorStep st r).total ∧
    st.success ≤ (collectorStep st r).success ∧
    st.failed ≤ (collectorStep st r).failed ∧
    ((∃ x ∈ rs, aggOk x = true) →
      (collect rs).minLatency ≤ (collect rs).maxLatency) := by
  obtain ⟨ht, hsf⟩ := collectorStep_counters st r
  refine ⟨foldl_total_eq rs initStats rfl, by omega, ?_, ?_,
    fun h => foldl_minmax rs initStats (Or.inl h)⟩
  · rcases hsf with ⟨hs, hf⟩ | ⟨hs, hf⟩ <;> omega
  · rcases hsf with ⟨hs, hf⟩ | ⟨hs, hf⟩ <;> omega

/-- Witness for C7 on a run containing one status-200 success. -/
theorem c7_witness :
    (∃ x ∈ [({ url := "u", status := 200, duration := 11, error := none } : Result)],
        aggOk x = true) ∧
    (collect [({ url := "u", status := 200, duration := 11, error := none } : Result)]).total
        = (collect [({ url := "u", status := 200, duration := 11, error := none } : Result)]).success
          + (collect [({ url := "u", status := 200, duration := 11, error := none } : Result)]).failed ∧
    (collect [({ url := "u", status := 200, duration := 11, error := none } : Result)]).minLatency
        ≤ (collect [({ url := "u", status := 200, duration := 11, error := none } : Result)]).maxLatency := by
  have h := c7_aggregate_invariants
    [{ url := "u", status := 200, duration := 11, error := none }] initStats
    { url := "u", status := 200, duration := 11, error := none }
  exact ⟨by decide, h.1, h.2.2.2.2 (by decide)⟩

/-- C8: a consumed result counts as a success exactly when its error is
absent and its status is 0 or < 400; a status-0, error-free result is
counted in `success` and updates both latency extrema with its duration. -/
theorem c8_status_zero_is_success (st : Stats) (r : Result)
    (h0 : r.status = 0) (he : r.error = none) :
    (∀ x : Result, aggOk x = true ↔ x.error = none ∧ (x.status = 0 ∨ x.status < 400)) ∧
    (collectorStep st r).success = st.success + 1 ∧
    (collectorStep st r).failed = st.failed ∧
    (collectorStep st r).minLatency
        = (if r.duration < st.minLatency then r.duration else st.minLatency) ∧
    (collectorStep st r).maxLatency
        = (if st.maxLatency < r.duration then r.duration else st.maxLatency) := by
  have hok : aggOk r = true := by
    rw [aggOk_iff]
    exact ⟨he, Or.inl h0⟩
  refine ⟨aggOk_iff, ?_, ?_, ?_, ?_⟩ <;> simp [collectorStep, hok, he]

/-- Witness for C8 on a status-0, error-free result consumed from the
initial state. -/
theorem c8_witness :
    ({ url := "u", status := 0, duration := 10, error := none } : Result).status = 0 ∧
    (collectorStep initStats { url := "u", status := 0, duration := 10, error := none }).success
        = initStats.success + 1 ∧
    (collectorStep initStats { url := "u", status := 0, duration := 10, error := none }).minLatency
        = (if (10 : Int) < initStats.minLatency then 10 else initStats.minLatency) := by
  have h := c8_status_zero_is_success initStats
    { url := "u", status := 0, duration := 10, error := none } rfl rfl
  exact ⟨rfl, h.2.1, h.2.2.2.1⟩

/-- C10: when no error-free result is ever consumed, `minLatency` keeps its
initialization sentinel `2^63 - 1` and `maxLatency` keeps `0`, and the final
summary's latency line is still printed with these sentinel values (and a
zero average) whenever `total > 0`. -/
theorem c10_sentinels_survive_and_print (rs : List Result)
    (h : ∀ r ∈ rs, r.error ≠ none) :
    (collect rs).minLatency = 2 ^ 63 - 1 ∧
    (collect rs).maxLatency = 0 ∧
    (0 < (collect rs).total →
      summaryLatencyLine (collect rs) = some (0, 2 ^ 63 - 1, 0)) := by
  have hemp : rs.filter (fun r => r.error.isNone) = [] := by
    rw [List.filter_eq_nil_iff]
    intro r hr
    simpa [Option.isNone_iff_eq_none] using h r hr
  have hlat : latOf (collect rs) = latOf initStats := by
    rw [collect, latOf_foldl, foldl_latStep_filter, hemp]
    rfl
  have h1 : (collect rs).sumNanos = 0 := congrArg Prod.fst hlat
  have h2 : (collect rs).minLatency = 2 ^ 63 - 1 := congrArg (fun p => p.2.1) hlat
  have h3 : (collect rs).maxLatency = 0 := congrArg (fun p => p.2.2) hlat
  refine ⟨h2, h3, ?_⟩
  intro hpos
  rw [summaryLatencyLine, if_pos hpos, avgLatency, h1, h2, h3]
  simp

/-- Witness for C10 on a run with a single transport-error result. -/
theorem c10_witness :
    (∀ r ∈ [({ url := "u", status := 0, duration := 9, error := some .transport } : Result)],
        r.error ≠ none) ∧
    (collect [{ url := "u", status := 0, duration := 9, error := some .transport }]).minLatency
        = 2 ^ 63 - 1 ∧
    summaryLatencyLine
        (collect [{ url := "u", status := 0, duration := 9, error := some .transport }])
        = some (0, 2 ^ 63 - 1, 0) := by
  have h := c10_sentinels_survive_and_print
    [{ url := "u", status := 0, duration := 9, error := some .transport }] (by decide)
  exact ⟨by decide, h.1, h.2.2 (by decide)⟩

end PingParallel
